import Mathlib

/-!
# netlogger: a severity-gated logging facade

A shallow embedding of `src/netlogger/netlogger.go` and a verification of
the properties its specification states.

## What is embedded

* `Severity`, its seven constants and `Severity.String`;
* `NetLogger`, `NewNetLogger` and the fifteen logging methods;
* `createLogMessage`, `createLogMessagef`;
* `printContextInternals`, the reflective dump of a context value.

## How effects are represented

A call is modelled by the `Run` it produces: the chronological list of
observable events (text written to standard output by `fmt.Printf`, text
handed to the standard logger) together with the way the call ended
(returned, panicked, or left the process through `os.Exit`).  Sequential
composition `Run.andThen` skips the second part when the first one did not
return, which is how a panic inside `printContextInternals` prevents the
log call that follows it in the source.

## Values

Go values of static type `any` are represented by the inductive type `Any`.
It covers the untyped nil interface, booleans, integers, strings, structs
(as the list of their fields in declaration order), non-nil pointers and
typed nil pointers.  Values carry no methods, so `Stringer`, `error` and
`Formatter` dispatch inside package `fmt` never applies.  Being an inductive
type, `Any` has no cyclic values.

## Library functions

`fmt.Sprint`, `fmt.Sprintln` and the `%v` / `%+v` rendering of package
`fmt` are modelled on `Any` from the documented behaviour of that package.
`fmt.Sprintf` is a parameter of everything that uses a caller-supplied
template (`Sprintf`); `fmt.Sprintf?` is a partial model of it on a small
fragment of templates, used to instantiate that parameter.
The standard logger is the sink: an `Event.log` carries the text that
`log.Print` / `log.Println` / `log.Fatal` / `log.Fatalln` format from their
arguments and pass to the logger's `Output` (`Run.records`).  What
`Output` then writes after its header is that text, followed by a newline
when the text does not end in one (`log.outputLine`, `Run.written`); the
header itself (prefix, date and time) is not modelled.
-/

namespace Netlogger

/-! ## Severity -/

/-- Source: `type Severity uint8`.  The values of the type are the
naturals below 256; no arithmetic is performed on severities, only
comparison and decimal rendering, so no reduction modulo 256 occurs. -/
abbrev Severity := Nat

def ALL : Severity := 0
def DEBUG : Severity := 10
def INFO : Severity := 20
def WARN : Severity := 30
def ERROR : Severity := 40
def FATAL : Severity := 50
def OFF : Severity := 60

/-- Source: `func (severity Severity) String() string`.  The default branch
is `fmt.Sprintf("%d", severity)`: verb `%d` does not dispatch to the
`String` method, it prints the underlying unsigned integer in base ten. -/
def Severity.String (severity : Severity) : String :=
  if severity = ALL then "[ALL]"
  else if severity = DEBUG then "[DEBUG]"
  else if severity = INFO then "[INFO]"
  else if severity = WARN then "[WARN]"
  else if severity = ERROR then "[ERROR]"
  else if severity = FATAL then "[FATAL]"
  else if severity = OFF then "[OFF]"
  else Nat.repr severity

/-! ## Go values -/

mutual
/-- A Go value held in an `any`. -/
inductive Any where
  /-- the nil interface value -/
  | nil
  | bool (b : Bool)
  | int (n : Int)
  | str (s : String)
  /-- a struct value, given by its fields in declaration order -/
  | struct (fields : Fields)
  /-- a non-nil pointer: the address it holds and the value stored there -/
  | ptr (addr : Nat) (target : Any)
  /-- a nil pointer; the flag tells whether its element type is a struct -/
  | nilPtr (elemIsStruct : Bool)
/-- The fields of a struct: name and value, in declaration order.  A field
of interface type is represented by the value it holds (`Any.nil` when it
holds none), which is what `reflect.Value.Interface` returns for it. -/
inductive Fields where
  | nil
  | cons (name : String) (value : Any) (rest : Fields)
end

/-- The fields as a list of name and value pairs. -/
def Fields.toList : Fields → List (String × Any)
  | .nil => []
  | .cons name value rest => (name, value) :: rest.toList

/-- Whether `reflect.TypeOf(arg).Kind() == reflect.String` for a non-nil
`arg`. -/
def Any.isString : Any → Bool
  | .str _ => true
  | _ => false

/-! ## Package fmt -/

/-- Model of `(*pp).fmtPointer` for verb `v` without the sharp flag:
`<nil>` for the zero address, otherwise `0x` and the address in lower-case
hexadecimal. -/
def fmt.fmtPointer (addr : Nat) : String :=
  if addr = 0 then "<nil>" else "0x" ++ String.mk (Nat.toDigits 16 addr)

mutual
/-- Model of `(*pp).printValue` for verb `v` at depth greater than zero,
where pointers are printed as addresses.  `plusV` is the `%+v` flag, under
which struct fields are preceded by their names. -/
def fmt.printValue (plusV : Bool) : Any → String
  | .nil => "<nil>"
  | .bool b => if b then "true" else "false"
  | .int n => toString n
  | .str s => s
  | .struct fields => "\x7b" ++ fmt.printStructFields plusV true fields ++ "\x7d"
  | .ptr addr _ => fmt.fmtPointer addr
  | .nilPtr _ => "<nil>"
/-- The loop over the fields of a struct inside `printValue`: fields are
separated by one space. -/
def fmt.printStructFields (plusV : Bool) (first : Bool) : Fields → String
  | .nil => ""
  | .cons name value rest =>
    (if first then "" else " ")
      ++ (if plusV && name != "" then name ++ ":" else "")
      ++ fmt.printValue plusV value
      ++ fmt.printStructFields plusV false rest
end

/-- Model of `(*pp).printArg(arg, 'v')`: at depth zero a non-nil pointer
to a struct is printed as `&` followed by the struct; every other value is
printed as `printValue` prints it. -/
def fmt.printArg (plusV : Bool) : Any → String
  | .ptr addr (.struct fields) =>
    if addr ≠ 0 then "&" ++ fmt.printValue plusV (.struct fields)
    else fmt.fmtPointer addr
  | arg => fmt.printValue plusV arg

/-- Model of `(*pp).doPrint`, the loop of `fmt.Sprint`: a space is written
before an operand other than the first when neither it nor the previous
operand is a string. -/
def fmt.doPrint (argNum : Nat) (prevString : Bool) : List Any → String
  | [] => ""
  | arg :: rest =>
    let isString := arg.isString
    (if 0 < argNum && !isString && !prevString then " " else "")
      ++ fmt.printArg false arg
      ++ fmt.doPrint (argNum + 1) isString rest

/-- Model of `fmt.Sprint`. -/
def fmt.Sprint (a : List Any) : String :=
  fmt.doPrint 0 false a

/-- Model of `(*pp).doPrintln`, the loop of `fmt.Sprintln`: a space is
written between operands always. -/
def fmt.doPrintln (argNum : Nat) : List Any → String
  | [] => ""
  | arg :: rest =>
    (if 0 < argNum then " " else "")
      ++ fmt.printArg false arg
      ++ fmt.doPrintln (argNum + 1) rest

/-- Model of `fmt.Sprintln`: the operands, then a newline. -/
def fmt.Sprintln (a : List Any) : String :=
  fmt.doPrintln 0 a ++ "\n"

/-- A partial model of `fmt.Sprintf`: templates made of literal text, the
escape `%%` and the verbs `%v`, `%+v`, `%d` (on an integer), `%s` (on a
string) and `%t` (on a boolean), each consuming one operand, with no
operand left over.  The result is `none` outside this fragment, where Go
would apply flags, widths and other verbs or insert its `%!` diagnostics. -/
def fmt.doPrintf : List Char → List Any → Option String
  | [], [] => some ""
  | [], _ :: _ => none
  | '%' :: '%' :: rest, a => (fmt.doPrintf rest a).map ("%" ++ ·)
  | '%' :: 'v' :: rest, arg :: a =>
    (fmt.doPrintf rest a).map (fmt.printArg false arg ++ ·)
  | '%' :: '+' :: 'v' :: rest, arg :: a =>
    (fmt.doPrintf rest a).map (fmt.printArg true arg ++ ·)
  | '%' :: 'd' :: rest, .int n :: a =>
    (fmt.doPrintf rest a).map (toString n ++ ·)
  | '%' :: 's' :: rest, .str s :: a =>
    (fmt.doPrintf rest a).map (s ++ ·)
  | '%' :: 't' :: rest, .bool b :: a =>
    (fmt.doPrintf rest a).map ((if b then "true" else "false") ++ ·)
  | '%' :: _, _ => none
  | c :: rest, a => (fmt.doPrintf rest a).map (String.singleton c ++ ·)

/-- The partial model of `fmt.Sprintf` on strings. -/
def fmt.Sprintf? (format : String) (a : List Any) : Option String :=
  fmt.doPrintf format.data a

/-- A total formatting routine that agrees with the partial model where
that one is defined. -/
def fmt.SprintfFragment (format : String) (a : List Any) : String :=
  (fmt.Sprintf? format a).getD ""

/-! ## Observable behaviour of a call -/

/-- An observable event. -/
inductive Event where
  /-- text written to standard output by one call of `fmt.Printf` -/
  | stdout (text : String)
  /-- text handed to the standard logger by one call of package `log` -/
  | log (text : String)
  deriving DecidableEq

/-- How a call ended. -/
inductive Status where
  /-- the call returned to its caller -/
  | returned
  /-- the call raised a run-time panic -/
  | panicked
  /-- the call ended the process through `os.Exit` with this status -/
  | exited (code : Nat)
  deriving DecidableEq

/-- The behaviour of a call: its events in the order they happened, and
how it ended.  No event happens after the call has ended. -/
structure Run where
  events : List Event
  status : Status
  deriving DecidableEq

/-- A call that does nothing and returns. -/
def Run.skip : Run := ⟨[], .returned⟩

/-- A run-time panic with nothing done before it. -/
def Run.panic : Run := ⟨[], .panicked⟩

/-- Sequential composition of two statements: the second runs only when
the first returned. -/
def Run.andThen (first second : Run) : Run :=
  match first.status with
  | .returned => ⟨first.events ++ second.events, second.status⟩
  | _ => first

/-- The texts handed to the standard logger's `Output`, in order. -/
def Run.records (r : Run) : List String :=
  r.events.filterMap fun
    | .log text => some text
    | .stdout _ => none

/-- All the text written to standard output, concatenated. -/
def Run.stdoutText (r : Run) : String :=
  String.join (r.events.filterMap fun
    | .stdout text => some text
    | .log _ => none)

/-! ## Package log -/

/-- Model of `log.Print(v...)`: `std.Output(2, fmt.Sprint(v...))`. -/
def log.Print (v : List Any) : Run :=
  ⟨[.log (fmt.Sprint v)], .returned⟩

/-- Model of `log.Println(v...)`: `std.Output(2, fmt.Sprintln(v...))`. -/
def log.Println (v : List Any) : Run :=
  ⟨[.log (fmt.Sprintln v)], .returned⟩

/-- Model of `log.Fatal(v...)`: `std.Output(2, fmt.Sprint(v...))` followed
by `os.Exit(1)`. -/
def log.Fatal (v : List Any) : Run :=
  ⟨[.log (fmt.Sprint v)], .exited 1⟩

/-- Model of `log.Fatalln(v...)`: `std.Output(2, fmt.Sprintln(v...))`
followed by `os.Exit(1)`. -/
def log.Fatalln (v : List Any) : Run :=
  ⟨[.log (fmt.Sprintln v)], .exited 1⟩

mutual
/-- Source: `func printContextInternals(ctx interface{})`.

`reflect.ValueOf(ctx).Elem()` panics unless the kind of `ctx` is pointer
(the nil interface gives the zero `Value`, whose kind is invalid).  For a
nil pointer `Elem()` is the zero `Value`, and `NumField` panics on it when
the element type is a struct.  When the element type is not a struct the
body of the `if` is skipped. -/
def printContextInternals : Any → Run
  | .nil => Run.panic
  | .bool _ => Run.panic
  | .int _ => Run.panic
  | .str _ => Run.panic
  | .struct _ => Run.panic
  | .nilPtr elemIsStruct => if elemIsStruct then Run.panic else Run.skip
  | .ptr _ (.struct fields) => printContextInternals.loop fields
  | .ptr _ _ => Run.skip
/-- The `for` loop of `printContextInternals` over the fields that remain:
a field named `Context` is dumped recursively, any other field is printed
by the two calls of `fmt.Printf`. -/
def printContextInternals.loop : Fields → Run
  | .nil => Run.skip
  | .cons name value rest =>
    (if name = "Context" then
      printContextInternals value
    else
      Run.andThen ⟨[.stdout (fmt.printArg true (.str name))], .returned⟩
        ⟨[.stdout (" : " ++ fmt.printArg true value ++ "\n")], .returned⟩).andThen
      (printContextInternals.loop rest)
end

/-! ## Building the record -/

/-- Source: `func createLogMessage(severity Severity, v ...any) string`. -/
def createLogMessage (severity : Severity) (v : List Any) : String :=
  let sb := ""
  let sb := sb ++ Severity.String severity
  let sb := sb ++ " "
  let sb := sb ++ fmt.Sprint v
  sb

/-- Source: `func createLogMessagef(severity Severity, format string,
v ...any) string`, with `fmt.Sprintf` as the parameter `Sprintf`. -/
def createLogMessagef (Sprintf : String → List Any → String)
    (severity : Severity) (format : String) (v : List Any) : String :=
  let sb := ""
  let sb := sb ++ Severity.String severity
  let sb := sb ++ " "
  let sb := sb ++ Sprintf format v
  sb

/-! ## The logger -/

/-- Source: `type NetLogger struct { Severity Severity }`. -/
structure NetLogger where
  Severity : Severity

/-- Source: `func NewNetLogger(severity Severity) NetLogger`. -/
def NewNetLogger (severity : Severity) : NetLogger :=
  ⟨severity⟩

/-- Source: `func (logger NetLogger) Debug(ctx context.Context, v ...any)`. -/
def NetLogger.Debug (logger : NetLogger) (ctx : Any) (v : List Any) : Run :=
  if logger.Severity ≤ DEBUG then
    (printContextInternals ctx).andThen
      (log.Print [.str (createLogMessage DEBUG v)])
  else Run.skip

/-- Source: `func (logger NetLogger) Debugln(ctx context.Context, v ...any)`. -/
def NetLogger.Debugln (logger : NetLogger) (ctx : Any) (v : List Any) : Run :=
  if logger.Severity ≤ DEBUG then
    (printContextInternals ctx).andThen
      (log.Println [.str (createLogMessage DEBUG v)])
  else Run.skip

/-- Source: `func (logger NetLogger) Debugf(ctx context.Context, format string,
v ...any)`, with `fmt.Sprintf` as the parameter `Sprintf`. -/
def NetLogger.Debugf (Sprintf : String → List Any → String) (logger : NetLogger)
    (ctx : Any) (format : String) (v : List Any) : Run :=
  if logger.Severity ≤ DEBUG then
    (printContextInternals ctx).andThen
      (log.Print [.str (createLogMessagef Sprintf DEBUG format v)])
  else Run.skip

/-- Source: `func (logger NetLogger) Info(ctx context.Context, v ...any)`. -/
def NetLogger.Info (logger : NetLogger) (ctx : Any) (v : List Any) : Run :=
  if logger.Severity ≤ INFO then
    (printContextInternals ctx).andThen
      (log.Print [.str (createLogMessage INFO v)])
  else Run.skip

/-- Source: `func (logger NetLogger) Infoln(ctx context.Context, v ...any)`. -/
def NetLogger.Infoln (logger : NetLogger) (ctx : Any) (v : List Any) : Run :=
  if logger.Severity ≤ INFO then
    (printContextInternals ctx).andThen
      (log.Println [.str (createLogMessage INFO v)])
  else Run.skip

/-- Source: `func (logger NetLogger) Infof(ctx context.Context, format string,
v ...any)`, with `fmt.Sprintf` as the parameter `Sprintf`. -/
def NetLogger.Infof (Sprintf : String → List Any → String) (logger : NetLogger)
    (ctx : Any) (format : String) (v : List Any) : Run :=
  if logger.Severity ≤ INFO then
    (printContextInternals ctx).andThen
      (log.Print [.str (createLogMessagef Sprintf INFO format v)])
  else Run.skip

/-- Source: `func (logger NetLogger) Warn(ctx context.Context, v ...any)`. -/
def NetLogger.Warn (logger : NetLogger) (ctx : Any) (v : List Any) : Run :=
  if logger.Severity ≤ WARN then
    (printContextInternals ctx).andThen
      (log.Print [.str (createLogMessage WARN v)])
  else Run.skip

/-- Source: `func (logger NetLogger) Warnln(ctx context.Context, v ...any)`. -/
def NetLogger.Warnln (logger : NetLogger) (ctx : Any) (v : List Any) : Run :=
  if logger.Severity ≤ WARN then
    (printContextInternals ctx).andThen
      (log.Println [.str (createLogMessage WARN v)])
  else Run.skip

/-- Source: `func (logger NetLogger) Warnf(ctx context.Context, format string,
v ...any)`, with `fmt.Sprintf` as the parameter `Sprintf`. -/
def NetLogger.Warnf (Sprintf : String → List Any → String) (logger : NetLogger)
    (ctx : Any) (format : String) (v : List Any) : Run :=
  if logger.Severity ≤ WARN then
    (printContextInternals ctx).andThen
      (log.Print [.str (createLogMessagef Sprintf WARN format v)])
  else Run.skip

/-- Source: `func (logger NetLogger) Error(ctx context.Context, v ...any)`. -/
def NetLogger.Error (logger : NetLogger) (ctx : Any) (v : List Any) : Run :=
  if logger.Severity ≤ ERROR then
    (printContextInternals ctx).andThen
      (log.Print [.str (createLogMessage ERROR v)])
  else Run.skip

/-- Source: `func (logger NetLogger) Errorln(ctx context.Context, v ...any)`. -/
def NetLogger.Errorln (logger : NetLogger) (ctx : Any) (v : List Any) : Run :=
  if logger.Severity ≤ ERROR then
    (printContextInternals ctx).andThen
      (log.Println [.str (createLogMessage ERROR v)])
  else Run.skip

/-- Source: `func (logger NetLogger) Errorf(ctx context.Context, format string,
v ...any)`, with `fmt.Sprintf` as the parameter `Sprintf`. -/
def NetLogger.Errorf (Sprintf : String → List Any → String) (logger : NetLogger)
    (ctx : Any) (format : String) (v : List Any) : Run :=
  if logger.Severity ≤ ERROR then
    (printContextInternals ctx).andThen
      (log.Print [.str (createLogMessagef Sprintf ERROR format v)])
  else Run.skip

/-- Source: `func (logger NetLogger) Fatal(ctx context.Context, v ...any)`. -/
def NetLogger.Fatal (logger : NetLogger) (ctx : Any) (v : List Any) : Run :=
  if logger.Severity ≤ FATAL then
    (printContextInternals ctx).andThen
      (log.Fatal [.str (createLogMessage FATAL v)])
  else Run.skip

/-- Source: `func (logger NetLogger) Fatalln(ctx context.Context, v ...any)`. -/
def NetLogger.Fatalln (logger : NetLogger) (ctx : Any) (v : List Any) : Run :=
  if logger.Severity ≤ FATAL then
    (printContextInternals ctx).andThen
      (log.Fatalln [.str (createLogMessage FATAL v)])
  else Run.skip

/-- Source: `func (logger NetLogger) Fatalf(ctx context.Context, format string,
v ...any)`, with `fmt.Sprintf` as the parameter `Sprintf`. -/
def NetLogger.Fatalf (Sprintf : String → List Any → String) (logger : NetLogger)
    (ctx : Any) (format : String) (v : List Any) : Run :=
  if logger.Severity ≤ FATAL then
    (printContextInternals ctx).andThen
      (log.Fatal [.str (createLogMessagef Sprintf FATAL format v)])
  else Run.skip

/-! ## The fifteen operations, indexed -/

/-- The five levels that have operations. -/
inductive Level where
  | Debug | Info | Warn | Error | Fatal
  deriving DecidableEq

/-- The three variants of each level's operation: plain, line-terminated
and formatted. -/
inductive Variant where
  | plain | ln | f
  deriving DecidableEq

/-- The severity constant an operation of this level compares the
configured minimum with and tags its record with. -/
def Level.severity : Level → Severity
  | .Debug => DEBUG
  | .Info => INFO
  | .Warn => WARN
  | .Error => ERROR
  | .Fatal => FATAL

/-- The operation of the given level and variant.  The template `format`
is used by the formatted variant only. -/
def NetLogger.call (Sprintf : String → List Any → String) (logger : NetLogger)
    (level : Level) (variant : Variant) (ctx : Any) (format : String)
    (v : List Any) : Run :=
  match level, variant with
  | .Debug, .plain => logger.Debug ctx v
  | .Debug, .ln => logger.Debugln ctx v
  | .Debug, .f => logger.Debugf Sprintf ctx format v
  | .Info, .plain => logger.Info ctx v
  | .Info, .ln => logger.Infoln ctx v
  | .Info, .f => logger.Infof Sprintf ctx format v
  | .Warn, .plain => logger.Warn ctx v
  | .Warn, .ln => logger.Warnln ctx v
  | .Warn, .f => logger.Warnf Sprintf ctx format v
  | .Error, .plain => logger.Error ctx v
  | .Error, .ln => logger.Errorln ctx v
  | .Error, .f => logger.Errorf Sprintf ctx format v
  | .Fatal, .plain => logger.Fatal ctx v
  | .Fatal, .ln => logger.Fatalln ctx v
  | .Fatal, .f => logger.Fatalf Sprintf ctx format v

/-! ## Contexts used in examples -/

/-- A pointer to a struct with the two fields `A: 1` and `B: "x"`. -/
def ctxAB : Any :=
  .ptr 49152 (.struct (.cons "A" (.int 1) (.cons "B" (.str "x") .nil)))

/-- The same struct passed by value, not through a pointer.  A context may
be a struct value: `context.Background()` is one in the Go releases that
declare the background context as a struct. -/
def ctxByValue : Any :=
  .struct (.cons "A" (.int 1) (.cons "B" (.str "x") .nil))

/-- A pointer to an integer, the shape of `context.Background()` in the Go
releases where `emptyCtx` is an integer type. -/
def ctxIntPtr : Any :=
  .ptr 49160 (.int 0)

/-- A pointer to a struct whose first field is named `Context` and holds
no value, followed by a field `A: 1`. -/
def ctxNilParent : Any :=
  .ptr 49168 (.struct (.cons "Context" .nil (.cons "A" (.int 1) .nil)))

/-- A pointer to a struct that embeds `ctxAB` in a field named `Context`
between two fields of its own. -/
def ctxNested : Any :=
  .ptr 49176 (.struct (.cons "key" (.str "k") (.cons "Context" ctxAB
    (.cons "val" (.int 7) .nil))))

/-! ## Notions used to state the properties -/

/-- Whether `reflect.TypeOf(ctx).Kind() == reflect.Pointer`. -/
def Any.isPointer : Any → Bool
  | .ptr _ _ => true
  | .nilPtr _ => true
  | _ => false

/-- Whether `ctx` is a pointer whose element type is a struct, that is
whether `reflect.TypeOf(ctx).Elem().Kind() == reflect.Struct`. -/
def Any.pointsToStruct : Any → Bool
  | .ptr _ (.struct _) => true
  | .nilPtr elemIsStruct => elemIsStruct
  | _ => false

mutual
/-- The contexts on which the dump runs to completion, described by their
shape: a pointer to something that is not a struct, or a non-nil pointer to
a struct each of whose fields named `Context` holds such a context again. -/
def Any.dumpable : Any → Bool
  | .ptr _ (.struct fields) => fields.dumpable
  | .ptr _ _ => true
  | .nilPtr elemIsStruct => !elemIsStruct
  | _ => false
/-- Every field named `Context` holds a dumpable context. -/
def Fields.dumpable : Fields → Bool
  | .nil => true
  | .cons name value rest =>
    (if name = "Context" then value.dumpable else true) && rest.dumpable
end

mutual
/-- The dump as the specification words it: one line `name : value` for
each field not named `Context`, and in place of a field named `Context`
the lines of the dump of the value it holds; a value that is not a pointer
to a struct contributes no line. -/
def dumpLines : Any → List String
  | .ptr _ (.struct fields) => dumpLines.ofFields fields
  | _ => []
/-- The lines of the fields that remain, in declaration order. -/
def dumpLines.ofFields : Fields → List String
  | .nil => []
  | .cons name value rest =>
    (if name = "Context" then dumpLines value
     else [name ++ " : " ++ fmt.printArg true value])
      ++ dumpLines.ofFields rest
end

/-- The join rule of `fmt.Sprint` stated on neighbours: the operands are
rendered in order, and one space stands between two neighbours exactly when
neither of them is a string. -/
def joinOperands : List Any → String
  | [] => ""
  | [arg] => fmt.printArg false arg
  | arg :: next :: rest =>
    fmt.printArg false arg
      ++ (if arg.isString || next.isString then "" else " ")
      ++ joinOperands (next :: rest)

/-- The value of a decimal digit character. -/
def digitValue (c : Char) : Nat :=
  c.toNat - 48

/-- The number a list of decimal digits denotes, most significant digit
first. -/
def parseDecimal (digits : List Char) : Nat :=
  digits.foldl (fun acc c => acc * 10 + digitValue c) 0

/-- Reads a severity back from its rendering: the seven tags give their
constants, anything else is read as a decimal numeral. -/
def decodeTag (tag : String) : Severity :=
  if tag = "[ALL]" then ALL
  else if tag = "[DEBUG]" then DEBUG
  else if tag = "[INFO]" then INFO
  else if tag = "[WARN]" then WARN
  else if tag = "[ERROR]" then ERROR
  else if tag = "[FATAL]" then FATAL
  else if tag = "[OFF]" then OFF
  else parseDecimal tag.data

/-- Reads the severity of a record: decodes the text before the first
space. -/
def recordSeverity (record : String) : Severity :=
  decodeTag (String.mk (record.data.takeWhile (· ≠ ' ')))

/-- The text an operation hands to the standard logger, built from what
the source passes to package `log`: the plain and the formatted variants
pass the message to `log.Print` (or `log.Fatal`), the line-terminated one
to `log.Println` (or `log.Fatalln`). -/
def recordText (Sprintf : String → List Any → String) (level : Level)
    (variant : Variant) (format : String) (v : List Any) : String :=
  match variant with
  | .plain => fmt.Sprint [.str (createLogMessage level.severity v)]
  | .ln => fmt.Sprintln [.str (createLogMessage level.severity v)]
  | .f => fmt.Sprint [.str (createLogMessagef Sprintf level.severity format v)]

/-- How the log call of a level ends: the `Fatal` family leaves the
process with status 1, the others return. -/
def Level.logStatus : Level → Status
  | .Fatal => .exited 1
  | _ => .returned

/-! # Properties -/

/-! ## Sequential composition -/

theorem Run.andThen_of_returned {first : Run} (h : first.status = .returned)
    (second : Run) :
    first.andThen second = ⟨first.events ++ second.events, second.status⟩ := by
  unfold Run.andThen; rw [h]

theorem Run.andThen_of_panicked {first : Run} (h : first.status = .panicked)
    (second : Run) : first.andThen second = first := by
  unfold Run.andThen; rw [h]

theorem Run.andThen_mk_returned (es : List Event) (second : Run) :
    Run.andThen ⟨es, .returned⟩ second = ⟨es ++ second.events, second.status⟩ :=
  rfl

theorem Run.records_append (es fs : List Event) (st st1 st2 : Status) :
    Run.records ⟨es ++ fs, st⟩ = Run.records ⟨es, st1⟩ ++ Run.records ⟨fs, st2⟩ := by
  simp [Run.records, List.filterMap_append]

theorem join_append_lists (xs ys : List String) :
    String.join (xs ++ ys) = String.join xs ++ String.join ys := by
  apply String.ext
  simp [String.data_join]

/-! ## Library facts -/

theorem fmt.Sprint_single_str (s : String) : fmt.Sprint [.str s] = s := by
  simp [fmt.Sprint, fmt.doPrint, fmt.printArg, fmt.printValue]

theorem fmt.Sprintln_single_str (s : String) : fmt.Sprintln [.str s] = s ++ "\n" := by
  simp [fmt.Sprintln, fmt.doPrintln, fmt.printArg, fmt.printValue]

/-! ## The shape shared by the fifteen operations -/

theorem call_eq (Sprintf : String → List Any → String) (M : Severity)
    (level : Level) (variant : Variant) (ctx : Any) (format : String)
    (v : List Any) :
    (NewNetLogger M).call Sprintf level variant ctx format v
      = if M ≤ level.severity then
          (printContextInternals ctx).andThen
            ⟨[.log (recordText Sprintf level variant format v)], level.logStatus⟩
        else Run.skip := by
  cases level <;> cases variant <;> rfl

theorem Run.stdoutText_append (es fs : List Event) (st st1 st2 : Status) :
    Run.stdoutText ⟨es ++ fs, st⟩
      = Run.stdoutText ⟨es, st1⟩ ++ Run.stdoutText ⟨fs, st2⟩ := by
  simp [Run.stdoutText, List.filterMap_append, join_append_lists]

theorem Run.andThen_records_nil {first second : Run} (h1 : first.records = [])
    (h2 : second.records = []) : (first.andThen second).records = [] := by
  unfold Run.andThen
  split
  · rw [Run.records_append first.events second.events _ first.status second.status]
    show first.records ++ second.records = []
    rw [h1, h2]; rfl
  · exact h1

/-! ## The context dump -/

mutual
theorem dump_status (ctx : Any) :
    (printContextInternals ctx).status
      = if ctx.dumpable then .returned else .panicked := by
  match ctx with
  | .nil => rfl
  | .bool _ => rfl
  | .int _ => rfl
  | .str _ => rfl
  | .struct _ => rfl
  | .nilPtr b => cases b <;> rfl
  | .ptr _ (.struct fields) =>
    simp only [printContextInternals, Any.dumpable]
    exact loop_status fields
  | .ptr _ .nil => rfl
  | .ptr _ (.bool _) => rfl
  | .ptr _ (.int _) => rfl
  | .ptr _ (.str _) => rfl
  | .ptr _ (.ptr _ _) => rfl
  | .ptr _ (.nilPtr _) => rfl
theorem loop_status (fields : Fields) :
    (printContextInternals.loop fields).status
      = if fields.dumpable then .returned else .panicked := by
  match fields with
  | .nil => rfl
  | .cons name value rest =>
    have ih := loop_status rest
    simp only [printContextInternals.loop, Fields.dumpable]
    by_cases hn : name = "Context"
    · have iv := dump_status value
      simp only [hn, if_true]
      cases hv : value.dumpable
      · simp only [hv] at iv
        rw [Run.andThen_of_panicked (by simpa using iv)]
        simpa using iv
      · simp only [hv] at iv
        rw [Run.andThen_of_returned (by simpa using iv)]
        simpa using ih
    · simp only [hn, if_false, Run.andThen_mk_returned, Bool.true_and]
      exact ih
end

theorem dump_returned_of_dumpable {ctx : Any} (h : ctx.dumpable = true) :
    (printContextInternals ctx).status = .returned := by
  rw [dump_status, h]; rfl

theorem dump_panicked_of_not_dumpable {ctx : Any} (h : ctx.dumpable = false) :
    (printContextInternals ctx).status = .panicked := by
  rw [dump_status, h]; rfl

mutual
theorem dump_records (ctx : Any) : (printContextInternals ctx).records = [] := by
  match ctx with
  | .nil => rfl
  | .bool _ => rfl
  | .int _ => rfl
  | .str _ => rfl
  | .struct _ => rfl
  | .nilPtr b => cases b <;> rfl
  | .ptr _ (.struct fields) =>
    simp only [printContextInternals]
    exact loop_records fields
  | .ptr _ .nil => rfl
  | .ptr _ (.bool _) => rfl
  | .ptr _ (.int _) => rfl
  | .ptr _ (.str _) => rfl
  | .ptr _ (.ptr _ _) => rfl
  | .ptr _ (.nilPtr _) => rfl
theorem loop_records (fields : Fields) :
    (printContextInternals.loop fields).records = [] := by
  match fields with
  | .nil => rfl
  | .cons name value rest =>
    simp only [printContextInternals.loop]
    apply Run.andThen_records_nil _ (loop_records rest)
    by_cases hn : name = "Context"
    · simp only [hn, if_true]
      exact dump_records value
    · simp only [hn, if_false]
      rfl
end

mutual
theorem dump_stdoutText (ctx : Any) (h : ctx.dumpable = true) :
    (printContextInternals ctx).stdoutText
      = String.join ((dumpLines ctx).map (· ++ "\n")) := by
  match ctx with
  | .nil => rfl
  | .bool _ => rfl
  | .int _ => rfl
  | .str _ => rfl
  | .struct _ => rfl
  | .nilPtr b => cases b <;> rfl
  | .ptr _ (.struct fields) =>
    simp only [printContextInternals, dumpLines]
    exact loop_stdoutText fields (by simpa [Any.dumpable] using h)
  | .ptr _ .nil => rfl
  | .ptr _ (.bool _) => rfl
  | .ptr _ (.int _) => rfl
  | .ptr _ (.str _) => rfl
  | .ptr _ (.ptr _ _) => rfl
  | .ptr _ (.nilPtr _) => rfl
theorem loop_stdoutText (fields : Fields) (h : fields.dumpable = true) :
    (printContextInternals.loop fields).stdoutText
      = String.join ((dumpLines.ofFields fields).map (· ++ "\n")) := by
  match fields with
  | .nil => rfl
  | .cons name value rest =>
    simp only [Fields.dumpable, Bool.and_eq_true] at h
    have ih := loop_stdoutText rest h.2
    simp only [printContextInternals.loop, dumpLines.ofFields]
    by_cases hn : name = "Context"
    · have hv : value.dumpable = true := by simpa [hn] using h.1
      have iv := dump_stdoutText value hv
      simp only [hn, if_true]
      rw [Run.andThen_of_returned (dump_returned_of_dumpable hv),
        Run.stdoutText_append _ _ _ (printContextInternals value).status
          (printContextInternals.loop rest).status]
      show (printContextInternals value).stdoutText
        ++ (printContextInternals.loop rest).stdoutText = _
      rw [iv, ih, List.map_append, join_append_lists]
    · simp only [hn, if_false, Run.andThen_mk_returned]
      rw [Run.stdoutText_append _ _ _ .returned (printContextInternals.loop rest).status]
      show _ ++ (printContextInternals.loop rest).stdoutText = _
      rw [ih, List.map_append, join_append_lists]
      congr 1
      apply String.ext
      simp [Run.stdoutText, String.data_join, fmt.printArg, fmt.printValue]
end

/-! ## Consequences for the operations -/

theorem call_of_permitted {Sprintf : String → List Any → String} {M : Severity}
    {level : Level} {ctx : Any} (hM : M ≤ level.severity)
    (hctx : ctx.dumpable = true) (variant : Variant) (format : String)
    (v : List Any) :
    (NewNetLogger M).call Sprintf level variant ctx format v
      = ⟨(printContextInternals ctx).events
          ++ [.log (recordText Sprintf level variant format v)], level.logStatus⟩ := by
  rw [call_eq, if_pos hM, Run.andThen_of_returned (dump_returned_of_dumpable hctx)]

theorem call_of_panicking {Sprintf : String → List Any → String} {M : Severity}
    {level : Level} {ctx : Any} (hM : M ≤ level.severity)
    (hctx : ctx.dumpable = false) (variant : Variant) (format : String)
    (v : List Any) :
    (NewNetLogger M).call Sprintf level variant ctx format v
      = printContextInternals ctx := by
  rw [call_eq, if_pos hM, Run.andThen_of_panicked (dump_panicked_of_not_dumpable hctx)]

theorem call_of_not_permitted {M : Severity} {level : Level}
    (hM : ¬ M ≤ level.severity) (Sprintf : String → List Any → String)
    (variant : Variant) (ctx : Any) (format : String) (v : List Any) :
    (NewNetLogger M).call Sprintf level variant ctx format v = Run.skip := by
  rw [call_eq, if_neg hM]

theorem records_dump_append (ctx : Any) (text : String) (st : Status) :
    Run.records ⟨(printContextInternals ctx).events ++ [.log text], st⟩ = [text] := by
  rw [Run.records_append _ _ _ (printContextInternals ctx).status .returned]
  show (printContextInternals ctx).records ++ _ = _
  rw [dump_records]
  rfl

theorem stdoutText_dump_append (ctx : Any) (text : String) (st : Status) :
    Run.stdoutText ⟨(printContextInternals ctx).events ++ [.log text], st⟩
      = (printContextInternals ctx).stdoutText := by
  rw [Run.stdoutText_append _ _ _ (printContextInternals ctx).status .returned]
  show (printContextInternals ctx).stdoutText ++ _ = _
  simp [Run.stdoutText, String.join]

theorem sprint_eq_joinOperands_aux (rest : List Any) :
    ∀ (arg : Any) (n : Nat),
      joinOperands (arg :: rest)
        = fmt.printArg false arg ++ fmt.doPrint (n + 1) arg.isString rest := by
  induction rest with
  | nil => intro arg n; simp [joinOperands, fmt.doPrint]
  | cons next rest ih =>
    intro arg n
    rw [joinOperands, ih next (n + 1)]
    simp only [fmt.doPrint, String.append_assoc]
    cases arg.isString <;> cases next.isString <;> simp

theorem sprint_eq_joinOperands (v : List Any) : fmt.Sprint v = joinOperands v := by
  cases v with
  | nil => rfl
  | cons arg rest =>
    rw [sprint_eq_joinOperands_aux rest arg 0]
    simp [fmt.Sprint, fmt.doPrint]

theorem call_eq_skip_iff (Sprintf : String → List Any → String) (M : Severity)
    (level : Level) (variant : Variant) (ctx : Any) (format : String)
    (v : List Any) :
    (NewNetLogger M).call Sprintf level variant ctx format v = ⟨[], .returned⟩
      ↔ ¬ M ≤ level.severity := by
  constructor
  · intro h hM
    cases hctx : ctx.dumpable
    · rw [call_of_panicking hM hctx] at h
      have hp := dump_panicked_of_not_dumpable hctx
      rw [h] at hp
      exact absurd hp (by decide)
    · rw [call_of_permitted hM hctx] at h
      have := congrArg Run.records h
      rw [records_dump_append] at this
      exact absurd this (by simp [Run.records])
  · intro hM
    exact call_of_not_permitted hM Sprintf variant ctx format v

theorem digitValue_digitChar (k : Nat) (h : k < 10) :
    digitValue (Nat.digitChar k) = k := by
  interval_cases k <;> rfl

theorem isDigit_digitChar (k : Nat) (h : k < 10) :
    (Nat.digitChar k).isDigit = true := by
  interval_cases k <;> rfl

theorem parse_toDigitsCore (fuel : Nat) :
    ∀ (n : Nat) (ds : List Char), n < fuel →
      (Nat.toDigitsCore 10 fuel n ds).foldl (fun acc c => acc * 10 + digitValue c) 0
        = ds.foldl (fun acc c => acc * 10 + digitValue c) n := by
  induction fuel with
  | zero => intro n ds h; omega
  | succ fuel ih =>
    intro n ds h
    simp only [Nat.toDigitsCore]
    have hmod : n % 10 < 10 := Nat.mod_lt _ (by decide)
    split
    · rename_i h0
      simp only [List.foldl_cons, Nat.zero_mul, Nat.zero_add,
        digitValue_digitChar _ hmod]
      congr 1
      omega
    · rename_i h0
      rw [ih (n / 10) _ (by omega)]
      simp only [List.foldl_cons, digitValue_digitChar _ hmod]
      congr 1
      omega

theorem isDigit_toDigitsCore (fuel : Nat) :
    ∀ (n : Nat) (ds : List Char), (∀ c ∈ ds, c.isDigit = true) →
      ∀ c ∈ Nat.toDigitsCore 10 fuel n ds, c.isDigit = true := by
  induction fuel with
  | zero => intro n ds h; simpa [Nat.toDigitsCore] using h
  | succ fuel ih =>
    intro n ds h
    have hmod : n % 10 < 10 := Nat.mod_lt _ (by decide)
    have hds : ∀ c ∈ Nat.digitChar (n % 10) :: ds, c.isDigit = true := by
      intro c hc
      rcases List.mem_cons.1 hc with rfl | hc
      · exact isDigit_digitChar _ hmod
      · exact h c hc
    simp only [Nat.toDigitsCore]
    split
    · exact hds
    · exact ih _ _ hds

theorem parseDecimal_repr (n : Nat) : parseDecimal (Nat.repr n).data = n := by
  simp only [parseDecimal, Nat.repr, Nat.toDigits, List.asString]
  rw [parse_toDigitsCore (n + 1) n [] (Nat.lt_succ_self n)]
  rfl

theorem isDigit_repr (n : Nat) : ∀ c ∈ (Nat.repr n).data, c.isDigit = true := by
  simp only [Nat.repr, Nat.toDigits, List.asString]
  exact isDigit_toDigitsCore _ _ _ (by simp)

theorem repr_ne_of_nondigit (n : Nat) (tag : String) (c : Char) (hc : c ∈ tag.data)
    (hnd : c.isDigit = false) : Nat.repr n ≠ tag := by
  intro h
  have := isDigit_repr n c (by rw [h]; exact hc)
  rw [hnd] at this
  exact absurd this (by decide)

/-! ## Rendering a severity -/

theorem severity_string_cases (s : Severity) :
    (s = 0 ∧ Severity.String s = "[ALL]")
      ∨ (s = 10 ∧ Severity.String s = "[DEBUG]")
      ∨ (s = 20 ∧ Severity.String s = "[INFO]")
      ∨ (s = 30 ∧ Severity.String s = "[WARN]")
      ∨ (s = 40 ∧ Severity.String s = "[ERROR]")
      ∨ (s = 50 ∧ Severity.String s = "[FATAL]")
      ∨ (s = 60 ∧ Severity.String s = "[OFF]")
      ∨ ((s ≠ 0 ∧ s ≠ 10 ∧ s ≠ 20 ∧ s ≠ 30 ∧ s ≠ 40 ∧ s ≠ 50 ∧ s ≠ 60)
          ∧ Severity.String s = Nat.repr s) := by
  unfold Severity.String ALL DEBUG INFO WARN ERROR FATAL OFF
  by_cases h0 : s = 0
  · simp [h0]
  by_cases h1 : s = 10
  · simp [h1]
  by_cases h2 : s = 20
  · simp [h2]
  by_cases h3 : s = 30
  · simp [h3]
  by_cases h4 : s = 40
  · simp [h4]
  by_cases h5 : s = 50
  · simp [h5]
  by_cases h6 : s = 60
  · simp [h6]
  simp [h0, h1, h2, h3, h4, h5, h6]

theorem decodeTag_repr (n : Nat) : decodeTag (Nat.repr n) = n := by
  have hb : ∀ tag : String, '[' ∈ tag.data → Nat.repr n ≠ tag := fun tag h =>
    repr_ne_of_nondigit n tag '[' h (by decide)
  unfold decodeTag
  rw [if_neg (hb _ (by decide)), if_neg (hb _ (by decide)), if_neg (hb _ (by decide)),
    if_neg (hb _ (by decide)), if_neg (hb _ (by decide)), if_neg (hb _ (by decide)),
    if_neg (hb _ (by decide))]
  exact parseDecimal_repr n

theorem decodeTag_string (s : Severity) : decodeTag (Severity.String s) = s := by
  rcases severity_string_cases s with h | h | h | h | h | h | h | h
  all_goals first
    | (obtain ⟨h1, h2⟩ := h; rw [h2, decodeTag_repr])
    | (obtain ⟨h1, h2⟩ := h; rw [h2, h1]; rfl)

theorem no_space_in_string (s : Severity) : ∀ c ∈ (Severity.String s).data, c ≠ ' ' := by
  rcases severity_string_cases s with h | h | h | h | h | h | h | h
  all_goals first
    | (obtain ⟨_, h2⟩ := h
       rw [h2]
       intro c hc hsp
       have := isDigit_repr s c hc
       rw [hsp] at this
       exact absurd this (by decide))
    | (obtain ⟨_, h2⟩ := h; rw [h2]; decide)

theorem takeWhile_before_space (l r : List Char) (h : ∀ c ∈ l, c ≠ ' ') :
    (l ++ ' ' :: r).takeWhile (· ≠ ' ') = l := by
  induction l with
  | nil => simp [List.takeWhile]
  | cons c l ih =>
    have hc : c ≠ ' ' := h c (List.mem_cons_self _ _)
    have hl : ∀ d ∈ l, d ≠ ' ' := fun d hd => h d (List.mem_cons_of_mem _ hd)
    have ih2 := ih hl
    simp only [List.cons_append, List.takeWhile, hc, ne_eq, not_false_eq_true,
      decide_True]
    exact congrArg (c :: ·) ih2

theorem recordSeverity_tagged (s : Severity) (body : String) :
    recordSeverity (Severity.String s ++ " " ++ body) = s := by
  unfold recordSeverity
  have hdata : (Severity.String s ++ " " ++ body).data
      = (Severity.String s).data ++ ' ' :: body.data := by
    simp [String.data_append]
  rw [hdata, takeWhile_before_space _ _ (no_space_in_string s)]
  exact decodeTag_string s

/-! ## C1: the threshold gate -/

/-- C1, counterexample: with minimum `ALL` and the nil context, `Debug` is
permitted by the threshold (`ALL ≤ DEBUG`) and yet hands no record to the
sink, because the context dump that precedes the log call panics.  The
same happens with a context that is a struct passed by value. -/
theorem c1_counterexample_nil_context :
    ¬ ((((NewNetLogger ALL).call fmt.SprintfFragment .Debug .plain Any.nil ""
          [.str "a"]).records ≠ [])
        ↔ ALL ≤ Level.severity .Debug)
      ∧ ¬ ((((NewNetLogger ALL).call fmt.SprintfFragment .Debug .plain ctxByValue ""
          [.str "a"]).records ≠ [])
        ↔ ALL ≤ Level.severity .Debug)
      ∧ (NewNetLogger ALL).Debug Any.nil [.str "a"] = ⟨[], .panicked⟩ := by
  decide

/-- C1, amended: for every minimum severity `M` (any natural number, so
any 8-bit value), each of the fifteen operations and every context whose
dump runs to completion, the operation hands a record to the sink if and
only if `M` is at most the number of its level, where the levels are
numbered DEBUG=10, INFO=20, WARN=30, ERROR=40, FATAL=50; a logger built
with `OFF` writes no record at any level whatever the context, and a logger
built with `ALL` writes one at every level. -/
theorem c1_threshold_gate (Sprintf : String → List Any → String) (M : Severity)
    (level : Level) (variant : Variant) (ctx : Any) (format : String)
    (v : List Any) (hctx : ctx.dumpable = true) :
    ((((NewNetLogger M).call Sprintf level variant ctx format v).records ≠ [])
        ↔ M ≤ level.severity)
      ∧ (∀ anyCtx : Any,
          ((NewNetLogger OFF).call Sprintf level variant anyCtx format v).records = [])
      ∧ ((NewNetLogger ALL).call Sprintf level variant ctx format v).records ≠ []
      ∧ [Level.Debug, .Info, .Warn, .Error, .Fatal].map Level.severity
          = [10, 20, 30, 40, 50] := by
  refine ⟨?_, ?_, ?_, rfl⟩
  · by_cases hM : M ≤ level.severity
    · rw [call_of_permitted hM hctx, records_dump_append]
      simp [hM]
    · rw [call_of_not_permitted hM]
      simp [hM, Run.skip, Run.records]
  · intro anyCtx
    have hoff : ¬ OFF ≤ level.severity := by cases level <;> decide
    rw [call_of_not_permitted hoff]
    rfl
  · have hall : ALL ≤ level.severity := Nat.zero_le _
    rw [call_of_permitted hall hctx, records_dump_append]
    simp

/-- C1, witness: `Errorln` on a logger with minimum `WARN` and a context
that is a pointer to a struct. -/
theorem c1_threshold_gate_witness :
    ctxAB.dumpable = true
      ∧ ((((NewNetLogger WARN).call fmt.SprintfFragment .Error .ln ctxAB ""
            [.str "a"]).records ≠ [])
          ↔ WARN ≤ Level.severity .Error) :=
  ⟨by decide,
    (c1_threshold_gate fmt.SprintfFragment WARN .Error .ln ctxAB "" [.str "a"]
      (by decide)).1⟩

/-! ## C2: the plain operations -/

/-- C2, counterexample: `Debug(ctx, "a", "b")` on a logger with minimum
`ALL` hands the sink `[DEBUG] ab`, not `[DEBUG] a b`: `fmt.Sprint` puts no
space between two operands when either is a string. -/
theorem c2_counterexample_adjacent_strings :
    ((NewNetLogger ALL).Debug ctxAB [.str "a", .str "b"]).records = ["[DEBUG] ab"]
      ∧ ((NewNetLogger ALL).Debug ctxAB [.str "a", .str "b"]).records
          ≠ ["[DEBUG] a b"] := by
  decide

/-- C2, amended: for every level, every minimum severity that permits it,
every context whose dump runs to completion and every list of values, the
plain operation hands the sink exactly one record: the severity tag of the
level, one space, and the values rendered in order, where one space stands
between two neighbouring values exactly when neither of them is a string
(`joinOperands`, which is what `fmt.Sprint` computes); the record carries
no newline added by the call. -/
theorem c2_plain_record (Sprintf : String → List Any → String) (M : Severity)
    (level : Level) (ctx : Any) (format : String) (v : List Any)
    (hM : M ≤ level.severity) (hctx : ctx.dumpable = true) :
    ((NewNetLogger M).call Sprintf level .plain ctx format v).records
        = [Severity.String level.severity ++ " " ++ joinOperands v]
      ∧ fmt.Sprint v = joinOperands v := by
  refine ⟨?_, sprint_eq_joinOperands v⟩
  rw [call_of_permitted hM hctx, records_dump_append]
  simp only [recordText, fmt.Sprint_single_str, createLogMessage,
    sprint_eq_joinOperands v, String.empty_append]

/-- C2, witness: `Debug(ctx, 1, 2, "b", 3)` on a logger with minimum `ALL`
hands the sink `[DEBUG] 1 2b3`. -/
theorem c2_plain_record_witness :
    ALL ≤ Level.severity .Debug ∧ ctxAB.dumpable = true
      ∧ ((NewNetLogger ALL).call fmt.SprintfFragment .Debug .plain ctxAB ""
            [.int 1, .int 2, .str "b", .int 3]).records
          = ["[DEBUG] 1 2b3"] :=
  ⟨by decide, by decide,
    (c2_plain_record fmt.SprintfFragment ALL .Debug ctxAB ""
      [.int 1, .int 2, .str "b", .int 3] (by decide) (by decide)).1⟩

/-! ## C3: when the context dump runs -/

/-- C3, counterexample: `Debug` on a logger with minimum `ERROR` writes
nothing to standard output and returns, although the dump of the context
it is given consists of the two lines `A : 1` and `B : x`: the dump stands
inside the threshold test and is suppressed together with the record. -/
theorem c3_counterexample_suppressed_dump :
    (NewNetLogger ERROR).call fmt.SprintfFragment .Debug .plain ctxAB "" [.str "a"]
        = Run.skip
      ∧ ((NewNetLogger ERROR).call fmt.SprintfFragment .Debug .plain ctxAB ""
            [.str "a"]).stdoutText = ""
      ∧ (printContextInternals ctxAB).stdoutText = "A : 1\nB : x\n" := by
  decide

/-- C3, amended: the context dump is gated by the same threshold test as
the record.  For every minimum severity `M`, every operation and every
context, the text the operation writes to standard output is the text of
the context dump when `M` is at most the level and is empty otherwise; when
`M` permits the level the events of the dump come first among the events of
the call, and the call does nothing at all and returns exactly when `M`
does not permit the level. -/
theorem c3_dump_gated (Sprintf : String → List Any → String) (M : Severity)
    (level : Level) (variant : Variant) (ctx : Any) (format : String)
    (v : List Any) :
    ((NewNetLogger M).call Sprintf level variant ctx format v).stdoutText
        = (if M ≤ level.severity then (printContextInternals ctx).stdoutText else "")
      ∧ (if M ≤ level.severity then (printContextInternals ctx).events else [])
          <+: ((NewNetLogger M).call Sprintf level variant ctx format v).events
      ∧ ((NewNetLogger M).call Sprintf level variant ctx format v = Run.skip
          ↔ ¬ M ≤ level.severity) := by
  by_cases hM : M ≤ level.severity
  · simp only [if_pos hM]
    cases hctx : ctx.dumpable
    · rw [call_of_panicking hM hctx]
      refine ⟨rfl, List.prefix_refl _, ?_⟩
      have hp := dump_panicked_of_not_dumpable hctx
      constructor
      · intro h
        rw [h] at hp
        exact absurd hp (by decide)
      · intro h
        exact absurd hM h
    · rw [call_of_permitted hM hctx]
      refine ⟨stdoutText_dump_append _ _ _, List.prefix_append _ _, ?_⟩
      constructor
      · intro h
        have := congrArg Run.records h
        rw [records_dump_append] at this
        exact absurd this (by simp [Run.skip, Run.records])
      · intro h
        exact absurd hM h
  · simp only [if_neg hM]
    rw [call_of_not_permitted hM]
    exact ⟨rfl, List.prefix_refl _, by simp [hM]⟩

/-! ## C4: the rendering of a severity -/

/-- C4: `Severity.String` is a total function that returns the bracketed
upper-case tags `[ALL]`, `[DEBUG]`, `[INFO]`, `[WARN]`, `[ERROR]`,
`[FATAL]`, `[OFF]` for the values 0, 10, 20, 30, 40, 50, 60, and for every
other value `s` (in particular every other value below 256) returns the
decimal numeral of `s`: the string `Nat.repr s`, which consists of decimal
digits only, so has no brackets, and reads back as `s`. -/
theorem c4_severity_string (s : Severity) :
    (Severity.String 0 = "[ALL]" ∧ Severity.String 10 = "[DEBUG]"
        ∧ Severity.String 20 = "[INFO]" ∧ Severity.String 30 = "[WARN]"
        ∧ Severity.String 40 = "[ERROR]" ∧ Severity.String 50 = "[FATAL]"
        ∧ Severity.String 60 = "[OFF]")
      ∧ ((ALL, DEBUG, INFO, WARN, ERROR, FATAL, OFF) = (0, 10, 20, 30, 40, 50, 60))
      ∧ ((s = 0 ∨ s = 10 ∨ s = 20 ∨ s = 30 ∨ s = 40 ∨ s = 50 ∨ s = 60)
          ∨ (Severity.String s = Nat.repr s
              ∧ parseDecimal (Severity.String s).data = s
              ∧ ∀ c ∈ (Severity.String s).data, c.isDigit = true))
      ∧ (Severity.String 7 = "7" ∧ Severity.String 45 = "45"
          ∧ Severity.String 255 = "255") := by
  refine ⟨by decide, rfl, ?_, by decide⟩
  rcases severity_string_cases s with h | h | h | h | h | h | h | h
  · exact Or.inl (Or.inl h.1)
  · exact Or.inl (Or.inr (Or.inl h.1))
  · exact Or.inl (Or.inr (Or.inr (Or.inl h.1)))
  · exact Or.inl (Or.inr (Or.inr (Or.inr (Or.inl h.1))))
  · exact Or.inl (Or.inr (Or.inr (Or.inr (Or.inr (Or.inl h.1)))))
  · exact Or.inl (Or.inr (Or.inr (Or.inr (Or.inr (Or.inr (Or.inl h.1))))))
  · exact Or.inl (Or.inr (Or.inr (Or.inr (Or.inr (Or.inr (Or.inr h.1))))))
  · right
    rw [h.2]
    exact ⟨rfl, parseDecimal_repr s, isDigit_repr s⟩

/-! ## C5: the Fatal family -/

/-- C5, counterexample: `Fatal` on a logger with minimum `ALL` and the nil
context is permitted by the threshold, and the call panics inside the
context dump: no record has been written and the logger has not ended the
process through `os.Exit`.  The same happens with a context that is a
struct passed by value. -/
theorem c5_counterexample_nil_context :
    ALL ≤ FATAL
      ∧ (NewNetLogger ALL).Fatal Any.nil [.str "a"] = ⟨[], .panicked⟩
      ∧ ((NewNetLogger ALL).Fatal Any.nil [.str "a"]).records = []
      ∧ ((NewNetLogger ALL).Fatal Any.nil [.str "a"]).status ≠ .exited 1
      ∧ (NewNetLogger ALL).Fatal ctxByValue [.str "a"] = ⟨[], .panicked⟩ := by
  decide

/-- C5, amended: for `Fatal`, `Fatalln` and `Fatalf`, every minimum
severity `M` and every context whose dump runs to completion: the call ends
the process (through `os.Exit` with status 1) if and only if `M ≤ FATAL`;
when it does, the events of the call are those of the context dump followed
by exactly one record, which begins with `[FATAL] ` and is therefore
written before the process ends; and when `M > FATAL` the call returns
having written nothing.  This last part holds for every context: whatever
the context, the call returns with nothing done exactly when `M > FATAL`. -/
theorem c5_fatal (Sprintf : String → List Any → String) (M : Severity)
    (variant : Variant) (ctx : Any) (format : String) (v : List Any)
    (hctx : ctx.dumpable = true) :
    (((NewNetLogger M).call Sprintf .Fatal variant ctx format v).status = .exited 1
        ↔ M ≤ FATAL)
      ∧ (NewNetLogger M).call Sprintf .Fatal variant ctx format v
          = (if M ≤ FATAL then
              ⟨(printContextInternals ctx).events
                ++ [.log (recordText Sprintf .Fatal variant format v)], .exited 1⟩
            else ⟨[], .returned⟩)
      ∧ ((NewNetLogger M).call Sprintf .Fatal variant ctx format v).records
          = (if M ≤ FATAL then [recordText Sprintf .Fatal variant format v] else [])
      ∧ (∃ rest, recordText Sprintf .Fatal variant format v = "[FATAL] " ++ rest)
      ∧ (∀ anyCtx : Any,
          ((NewNetLogger M).call Sprintf .Fatal variant anyCtx format v
              = ⟨[], .returned⟩
            ↔ ¬ M ≤ FATAL)) := by
  have hany : ∀ anyCtx : Any,
      ((NewNetLogger M).call Sprintf .Fatal variant anyCtx format v
          = ⟨[], .returned⟩
        ↔ ¬ M ≤ FATAL) := fun anyCtx =>
    call_eq_skip_iff Sprintf M .Fatal variant anyCtx format v
  have hhead : ∃ rest, recordText Sprintf .Fatal variant format v
      = "[FATAL] " ++ rest := by
    cases variant
    · exact ⟨fmt.Sprint v, by
        simp only [recordText, fmt.Sprint_single_str, createLogMessage,
          String.empty_append]; rfl⟩
    · exact ⟨fmt.Sprint v ++ "\n", by
        simp only [recordText, fmt.Sprintln_single_str, createLogMessage,
          String.empty_append, String.append_assoc]; rfl⟩
    · exact ⟨Sprintf format v, by
        simp only [recordText, fmt.Sprint_single_str, createLogMessagef,
          String.empty_append]; rfl⟩
  by_cases hM : M ≤ FATAL
  · have hM2 : M ≤ Level.severity .Fatal := hM
    refine ⟨?_, ?_, ?_, hhead, hany⟩
    · rw [call_of_permitted hM2 hctx]
      simp [Level.logStatus, hM]
    · rw [call_of_permitted hM2 hctx, if_pos hM]
      rfl
    · rw [call_of_permitted hM2 hctx, records_dump_append, if_pos hM]
  · have hM2 : ¬ M ≤ Level.severity .Fatal := hM
    refine ⟨?_, ?_, ?_, hhead, hany⟩
    · rw [call_of_not_permitted hM2]
      simp [Run.skip, hM]
    · rw [call_of_not_permitted hM2, if_neg hM]
      rfl
    · rw [call_of_not_permitted hM2, if_neg hM]
      rfl

/-- C5, witness: `Fatalln(ctx, "disk", "full")` on a logger with minimum
`ERROR` writes the dump, then the record, and ends the process. -/
theorem c5_fatal_witness :
    ctxAB.dumpable = true
      ∧ (NewNetLogger ERROR).call fmt.SprintfFragment .Fatal .ln ctxAB ""
            [.str "disk", .str "full"]
          = ⟨[.stdout "A", .stdout " : 1\n", .stdout "B", .stdout " : x\n",
              .log "[FATAL] diskfull\n"], .exited 1⟩ :=
  ⟨by decide,
    (c5_fatal fmt.SprintfFragment ERROR .ln ctxAB "" [.str "disk", .str "full"]
      (by decide)).2.1⟩

/-! ## C6: the formatted operations -/

/-- C6, counterexample: `Warnf(ctx, "%d items", 3)` on a logger with
minimum `WARN` hands the sink nothing when the context is nil: the context
dump panics before the log call is reached.  The same happens with a
context that is a struct passed by value. -/
theorem c6_counterexample_nil_context :
    WARN ≤ Level.severity .Warn
      ∧ fmt.SprintfFragment "%d items" [.int 3] = "3 items"
      ∧ ((NewNetLogger WARN).Warnf fmt.SprintfFragment Any.nil "%d items"
            [.int 3]).records = []
      ∧ ((NewNetLogger WARN).Warnf fmt.SprintfFragment Any.nil "%d items"
            [.int 3]).records ≠ ["[WARN] 3 items"]
      ∧ ((NewNetLogger WARN).Warnf fmt.SprintfFragment ctxByValue "%d items"
            [.int 3]).records = [] := by
  decide

/-- C6, amended: for every level, every minimum severity that permits it,
every context whose dump runs to completion, every template and every list
of values, the formatted operation hands the sink exactly one record: the
severity tag of the level, one space, and the result of applying the
template to the values (for whatever formatting routine `Sprintf` stands
for). -/
theorem c6_formatted_record (Sprintf : String → List Any → String) (M : Severity)
    (level : Level) (ctx : Any) (format : String) (v : List Any)
    (hM : M ≤ level.severity) (hctx : ctx.dumpable = true) :
    ((NewNetLogger M).call Sprintf level .f ctx format v).records
      = [Severity.String level.severity ++ " " ++ Sprintf format v] := by
  rw [call_of_permitted hM hctx, records_dump_append]
  simp only [recordText, fmt.Sprint_single_str, createLogMessagef,
    String.empty_append]

/-- C6, witness: `Warnf(ctx, "%d items", 3)` on a logger with minimum
`WARN` hands the sink `[WARN] 3 items`. -/
theorem c6_formatted_record_witness :
    WARN ≤ Level.severity .Warn ∧ ctxIntPtr.dumpable = true
      ∧ ((NewNetLogger WARN).call fmt.SprintfFragment .Warn .f ctxIntPtr
            "%d items" [.int 3]).records
          = ["[WARN] 3 items"] :=
  ⟨by decide, by decide,
    c6_formatted_record fmt.SprintfFragment WARN .Warn ctxIntPtr "%d items"
      [.int 3] (by decide) (by decide)⟩

/-! ## C7: the line-terminated operations -/

theorem dumpLines_ofFields_eq (fields : Fields) :
    dumpLines.ofFields fields
      = (fields.toList.map fun field =>
          if field.1 = "Context" then dumpLines field.2
          else [field.1 ++ " : " ++ fmt.printArg true field.2]).flatten := by
  match fields with
  | .nil => rfl
  | .cons name value rest =>
    simp only [dumpLines.ofFields, Fields.toList, List.map_cons, List.flatten_cons,
      dumpLines_ofFields_eq rest]

/-- C8, counterexample: for a pointer to a struct whose first field is
named `Context` and holds no value and whose second field is `A: 1`, the
specification's dump contains the line `A : 1`, but the code panics on the
first field and prints nothing.  A struct passed by value, not through a
pointer, makes the code panic at once as well. -/
theorem c8_counterexample_panicking_parent :
    "A : 1" ∈ dumpLines ctxNilParent
      ∧ printContextInternals ctxNilParent = ⟨[], .panicked⟩
      ∧ printContextInternals ctxByValue = ⟨[], .panicked⟩ := by
  decide

/-- C8, amended: for every non-nil pointer to a struct on which the dump
runs to completion (every field named `Context` holds, recursively, a
pointer the dump accepts), `printContextInternals` returns, hands nothing
to the sink, and writes to standard output exactly the lines of the
specification's dump, each followed by a newline: in field declaration
order, one line `name : value` for each field whose name is not `Context`,
and, at the position of a field named `Context`, the lines of the dump of
the value that field holds. -/
theorem c8_dump_lines (addr : Nat) (fields : Fields)
    (hfields : fields.dumpable = true) :
    (printContextInternals (.ptr addr (.struct fields))).stdoutText
        = String.join ((dumpLines (.ptr addr (.struct fields))).map (· ++ "\n"))
      ∧ dumpLines (.ptr addr (.struct fields))
        = (fields.toList.map fun field =>
            if field.1 = "Context" then dumpLines field.2
            else [field.1 ++ " : " ++ fmt.printArg true field.2]).flatten
      ∧ (printContextInternals (.ptr addr (.struct fields))).status = .returned
      ∧ (printContextInternals (.ptr addr (.struct fields))).records = [] := by
  have hctx : (Any.ptr addr (.struct fields)).dumpable = true := by
    simpa [Any.dumpable] using hfields
  refine ⟨dump_stdoutText _ hctx, ?_, dump_returned_of_dumpable hctx, dump_records _⟩
  simp only [dumpLines]
  exact dumpLines_ofFields_eq fields

/-- C8, witness: a pointer to a struct with the fields `A: 1` and `B: "x"`
yields exactly the two lines `A : 1` and `B : x`, in that order. -/
theorem c8_dump_lines_witness :
    Fields.dumpable (.cons "A" (.int 1) (.cons "B" (.str "x") .nil)) = true
      ∧ (printContextInternals
          (.ptr 49152 (.struct (.cons "A" (.int 1) (.cons "B" (.str "x") .nil))))).stdoutText
          = "A : 1\nB : x\n"
      ∧ dumpLines
          (.ptr 49152 (.struct (.cons "A" (.int 1) (.cons "B" (.str "x") .nil))))
          = ["A : 1", "B : x"] :=
  ⟨by decide,
    (c8_dump_lines 49152 (.cons "A" (.int 1) (.cons "B" (.str "x") .nil))
      (by decide)).1,
    (c8_dump_lines 49152 (.cons "A" (.int 1) (.cons "B" (.str "x") .nil))
      (by decide)).2.1⟩

/-! ## C9: contexts that are not pointers to structs -/

/-- C9, counterexample: a pointer to an integer is not a structured record,
and `printContextInternals` does not panic on it: it returns having printed
nothing. -/
theorem c9_counterexample_pointer_to_int :
    ctxIntPtr.pointsToStruct = false
      ∧ printContextInternals ctxIntPtr = ⟨[], .returned⟩
      ∧ (printContextInternals ctxIntPtr).status ≠ .panicked := by
  decide

/-- C9, amended: when the context passed to `printContextInternals` is not
a pointer to a struct, the call prints nothing and either panics or
returns, according to whether the value is a pointer at all: it panics when
the value is not a pointer (the nil interface, a boolean, an integer, a
string, a struct passed by value) and it returns silently when the value is
a pointer, nil or not, to something that is not a struct.  A nil pointer to
a struct panics too.  For every context whatever, the call either returns
or panics, and it returns exactly on the contexts `Any.dumpable` describes
by their shape. -/
theorem c9_not_pointer_to_struct (ctx : Any) (hctx : ctx.pointsToStruct = false) :
    printContextInternals ctx
        = (if ctx.isPointer then ⟨[], .returned⟩ else ⟨[], .panicked⟩)
      ∧ printContextInternals (.nilPtr true) = ⟨[], .panicked⟩
      ∧ (∀ anyCtx : Any, (printContextInternals anyCtx).status
          = (if anyCtx.dumpable then .returned else .panicked)) := by
  refine ⟨?_, rfl, dump_status⟩
  match ctx, hctx with
  | .nil, _ => rfl
  | .bool _, _ => rfl
  | .int _, _ => rfl
  | .str _, _ => rfl
  | .struct _, _ => rfl
  | .nilPtr false, _ => rfl
  | .ptr _ .nil, _ => rfl
  | .ptr _ (.bool _), _ => rfl
  | .ptr _ (.int _), _ => rfl
  | .ptr _ (.str _), _ => rfl
  | .ptr _ (.ptr _ _), _ => rfl
  | .ptr _ (.nilPtr _), _ => rfl

/-- C9, witness: the nil interface value makes the call panic. -/
theorem c9_not_pointer_to_struct_witness :
    Any.pointsToStruct .nil = false
      ∧ printContextInternals .nil = ⟨[], .panicked⟩ :=
  ⟨by decide, (c9_not_pointer_to_struct .nil (by decide)).1⟩

/-! ## C10: the rendering is injective -/

/-- C10: `Severity.String` is injective on all severities (so on the 256
values of the type): `decodeTag` reads every severity back from its
rendering.  Hence the severity of a record is recovered from the tag that
`createLogMessage` and `createLogMessagef` put in front of it:
`recordSeverity`, which decodes the text before the first space of the
record, returns the severity the record was built with. -/
theorem c10_string_injective :
    Function.Injective Severity.String
      ∧ (∀ s : Severity, decodeTag (Severity.String s) = s)
      ∧ (∀ (s : Severity) (v : List Any),
          recordSeverity (createLogMessage s v) = s)
      ∧ (∀ (Sprintf : String → List Any → String) (s : Severity)
            (format : String) (v : List Any),
          recordSeverity (createLogMessagef Sprintf s format v) = s) := by
  refine ⟨?_, decodeTag_string, ?_, ?_⟩
  · intro a b h
    have := congrArg decodeTag h
    rwa [decodeTag_string, decodeTag_string] at this
  · intro s v
    simp only [createLogMessage, String.empty_append]
    exact recordSeverity_tagged s _
  · intro Sprintf s format v
    simp only [createLogMessagef, String.empty_append]
    exact recordSeverity_tagged s _

end Netlogger
